import Mathlib

set_option linter.unusedVariables false

/-!
Verification of the OpenClaw Athena memory bridge.

Shallow embedding of the plugin's message analyzer, lifecycle controller,
MCP client state machine, and configuration parser, translated from the
TypeScript sources (`extensions/memory-athena/index.ts`,
`extensions/memory-athena/config.ts`, `src/mcp/athena-client.ts`), together
with theorems settling the behavioural claims about them.

Modelling conventions:
* dynamic (duck-typed) JavaScript message values are embedded as inductive
  types that keep exactly the distinctions the code tests for
  (`typeof x === "object"`, key presence, `role === "user"`, ...);
* a JavaScript exception is an `Except.error`;
* `String.take n` stands for `slice(0, n)` and `String.trim` for `trim()`
  (the code-unit vs character distinction does not affect any claim);
* floating point relevance scores are embedded as rationals; `toFixed(1)`
  is exact rounding to tenths, which agrees with the JS result on every
  score appearing in a claim.
-/

/-- one entry of a message's `content` array, as probed by the analyzer:
the loops test `typeof block === "object" && "text" in block` and then read
`block.text` coerced to a string.  `jnull` is the JS `null` value (for which
`typeof null === "object"` holds but `"text" in null` throws a `TypeError`);
`withText s` is a non-null object with a `text` member whose string coercion
is `s`; `plain` is any other value (a non-object, or an object without a
`text` member), which the loops skip. -/
inductive JsBlock where
  | jnull : JsBlock
  | withText (s : String) : JsBlock
  | plain : JsBlock
  deriving DecidableEq, Repr

/-- the `content` field of a message: a string, an array of blocks, or
anything else (including an absent field). -/
inductive JsContent where
  | str (s : String) : JsContent
  | arr (blocks : List JsBlock) : JsContent
  | other : JsContent
  deriving DecidableEq, Repr

/-- one element of the host's `messages` array: either not an object
(skipped by every loop) or an object with a `role` (`none` when the field is
absent or not a string, which every `role === "user"` test treats the same
way) and a `content`. -/
inductive JsMsg where
  | nonObj : JsMsg
  | obj (role : Option String) (content : JsContent) : JsMsg
  deriving DecidableEq, Repr

/-- message whose `role` member is the string `"user"`. -/
def isUserMsg : JsMsg → Bool
  | JsMsg.obj (some r) _ => r = "user"
  | _ => false

/-- the error payload standing for the `TypeError` raised by
`"text" in null`. -/
def typeErrorMsg : String := "TypeError: cannot apply the in operator to null"

-- ===========================================================================
-- Message Analyzer (index.ts helper functions)
-- ===========================================================================

/-- the loop body `for (const msg of messages) { ... if (msgObj.role === "user")
userMessageCount++ }` of `hasEnoughExchanges`. -/
def countUserMessages : List JsMsg → Nat
  | [] => 0
  | JsMsg.obj role _ :: rest =>
      (if role = some "user" then 1 else 0) + countUserMessages rest
  | JsMsg.nonObj :: rest => countUserMessages rest

/-- `hasEnoughExchanges(messages)`: true iff at least 2 messages have role
`"user"`. -/
def hasEnoughExchanges (messages : List JsMsg) : Bool :=
  countUserMessages messages ≥ 2

/-- block concatenation of `generateSummary`: `text += block.text as string`,
raising on a `null` block (`typeof null === "object"` passes the guard and
`"text" in null` throws). -/
def summaryBlocksText : List JsBlock → Except String String
  | [] => Except.ok ""
  | JsBlock.jnull :: _ => Except.error typeErrorMsg
  | JsBlock.withText s :: rest => (summaryBlocksText rest).map (fun t => s ++ t)
  | JsBlock.plain :: rest => summaryBlocksText rest

/-- the text `generateSummary` extracts from one message: `none` for
non-user messages and non-objects, otherwise the trimmed string content or
trimmed block concatenation (empty for any other content shape). -/
def summaryMsgText : JsMsg → Except String (Option String)
  | JsMsg.nonObj => Except.ok none
  | JsMsg.obj role content =>
      if role = some "user" then
        match content with
        | JsContent.str s => Except.ok (some s.trim)
        | JsContent.arr bs => (summaryBlocksText bs).map (fun t => some t.trim)
        | JsContent.other => Except.ok (some "")
      else Except.ok none

/-- the scanning loop of `generateSummary`, carrying `firstUserMsg` and
`lastUserMsg`; messages with empty extracted text are skipped
(`if (!text) continue`), both accumulators receive `text.slice(0, 80)`. -/
def summaryScan : List JsMsg → String → String → Except String (String × String)
  | [], firstMsg, lastMsg => Except.ok (firstMsg, lastMsg)
  | m :: rest, firstMsg, lastMsg => do
      match (← summaryMsgText m) with
      | none => summaryScan rest firstMsg lastMsg
      | some t =>
          if t = "" then
            summaryScan rest firstMsg lastMsg
          else
            summaryScan rest (if firstMsg = "" then t.take 80 else firstMsg)
              (t.take 80)

/-- the separator `` ${firstUserMsg} â†’ ${lastUserMsg} `` of the source
(three characters U+00E2, U+2020, U+2019 between two spaces, byte-for-byte
as in the file). -/
def summarySep : String :=
  String.mk [' ', Char.ofNat 0xE2, Char.ofNat 0x2020, Char.ofNat 0x2019, ' ']

/-- `generateSummary(messages)`: fallback `"Conversation with user"` when no
user message with non-empty trimmed text exists, the single contribution when
first and last coincide, otherwise the two 80-character prefixes joined by
the separator. -/
def generateSummary (messages : List JsMsg) : Except String String := do
  let (firstMsg, lastMsg) ← summaryScan messages "" ""
  if firstMsg = "" then
    pure "Conversation with user"
  else if firstMsg = lastMsg then
    pure firstMsg
  else
    pure (firstMsg ++ summarySep ++ lastMsg)

-- ===========================================================================
-- Mini regex engine for the six `importantPatterns` of `extractKeyFacts`
-- ===========================================================================

/-- the apostrophe character, used inside two of the source's patterns. -/
def aposStr : String := String.mk [Char.ofNat 39]

/-- atoms of the fragment of JS regular expressions used by
`importantPatterns`: an ordered alternation of literal strings (optionally
case-insensitive, as under the `/i` flag), or a greedy character class
repeated at least `minRep` times (`\d{10,}`, `[\w.-]+`, `\s+`, `\w+`). -/
inductive REAtom where
  | lit (ci : Bool) (alts : List String) : REAtom
  | cls (p : Char → Bool) (minRep : Nat) : REAtom

/-- character comparison, case-insensitively when `ci` is set. -/
def ciEq (ci : Bool) (a b : Char) : Bool :=
  if ci then a.toLower = b.toLower else a = b

/-- whether the literal `pat` matches the beginning of `s` under `ciEq`. -/
def litHeadMatch (ci : Bool) : List Char → List Char → Bool
  | [], _ => true
  | _ :: _, [] => false
  | p :: ps, c :: cs => ciEq ci p c && litHeadMatch ci ps cs

/-- greedy backtracking over a repetition count: try `lo + extra`,
then `lo + extra - 1`, ..., down to `lo`, returning the first success of the
continuation. -/
def tryLensDesc (cont : Nat → Option (List Char)) (lo : Nat) : Nat → Option (List Char)
  | 0 => cont lo
  | extra + 1 =>
      match cont (lo + extra + 1) with
      | some r => some r
      | none => tryLensDesc cont lo extra

/-- ordered alternation: try each literal alternative left to right, with
backtracking into the continuation, as a JS engine does. -/
def tryAlts (cont : Nat → Option (List Char)) (ci : Bool) (s : List Char) :
    List String → Option (List Char)
  | [] => none
  | a :: more =>
      if litHeadMatch ci a.data s then
        match cont a.data.length with
        | some r => some r
        | none => tryAlts cont ci s more
      else tryAlts cont ci s more

/-- match a sequence of atoms at the start of `s`, returning the consumed
characters (the would-be `match[0]` minus the leftmost-position search). -/
def matchSeq : List REAtom → List Char → Option (List Char)
  | [], _ => some []
  | REAtom.lit ci alts :: rest, s =>
      tryAlts (fun n => (matchSeq rest (s.drop n)).map (fun r => s.take n ++ r)) ci s alts
  | REAtom.cls p minRep :: rest, s =>
      let mx := (s.takeWhile p).length
      if mx < minRep then none
      else
        tryLensDesc (fun n => (matchSeq rest (s.drop n)).map (fun r => s.take n ++ r))
          minRep (mx - minRep)

/-- leftmost match: try each start position left to right, as
`String.prototype.match` does without the `g` flag. -/
def reFirstMatch (pat : List REAtom) : List Char → Option (List Char)
  | [] => matchSeq pat []
  | c :: t =>
      match matchSeq pat (c :: t) with
      | some m => some m
      | none => reFirstMatch pat t

/-- `text.match(pattern)?.[0]` for the pattern fragment above. -/
def firstMatchStr (pat : List REAtom) (text : String) : Option String :=
  (reFirstMatch pat text.data).map String.mk

/-- JS `\w`: ASCII letters, digits, underscore. -/
def isWordChar (c : Char) : Bool := c.isAlphanum || c = '_'

/-- the class `[\w.-]` of the email pattern. -/
def isEmailChar (c : Char) : Bool := isWordChar c || c = '.' || c = '-'

/-- phone numbers: a `+` followed by 10 or more digits. -/
def patPhone : List REAtom := [REAtom.lit false ["+"], REAtom.cls Char.isDigit 10]

/-- email addresses: word-dot-dash run, `@`, word-dot-dash run, dot, word run. -/
def patEmail : List REAtom :=
  [REAtom.cls isEmailChar 1, REAtom.lit false ["@"], REAtom.cls isEmailChar 1,
   REAtom.lit false ["."], REAtom.cls isWordChar 1]

/-- personal info: one of four lead-ins, whitespace, a word
(case-insensitive). -/
def patPersonal : List REAtom :=
  [REAtom.lit true ["my", "name is", "i" ++ aposStr ++ "m", "i am"],
   REAtom.cls Char.isWhitespace 1, REAtom.cls isWordChar 1]

/-- preference statements followed by whitespace (case-insensitive). -/
def patPreference : List REAtom :=
  [REAtom.lit true ["prefer", "like", "love", "hate", "want", "need"],
   REAtom.cls Char.isWhitespace 1]

/-- explicit reminders followed by whitespace (case-insensitive). -/
def patReminder : List REAtom :=
  [REAtom.lit true ["remember", "don" ++ aposStr ++ "t forget", "make sure"],
   REAtom.cls Char.isWhitespace 1]

/-- stated decisions followed by whitespace (case-insensitive). -/
def patDecision : List REAtom :=
  [REAtom.lit true ["decided", "will use", "going to"],
   REAtom.cls Char.isWhitespace 1]

/-- the ordered `importantPatterns` array of `extractKeyFacts`. -/
def importantPatterns : List (List REAtom) :=
  [patPhone, patEmail, patPersonal, patPreference, patReminder, patDecision]

-- ===========================================================================
-- `extractKeyFacts`
-- ===========================================================================

/-- block concatenation of `extractKeyFacts`: `text += block.text + " "`,
raising on a `null` block exactly as in `generateSummary`. -/
def factsBlocksText : List JsBlock → Except String String
  | [] => Except.ok ""
  | JsBlock.jnull :: _ => Except.error typeErrorMsg
  | JsBlock.withText s :: rest => (factsBlocksText rest).map (fun t => s ++ " " ++ t)
  | JsBlock.plain :: rest => factsBlocksText rest

/-- the facts one message contributes: nothing for non-user messages;
otherwise the first match of each of the six patterns against the message's
extracted text, in pattern order. -/
def msgFacts : JsMsg → Except String (List String)
  | JsMsg.nonObj => Except.ok []
  | JsMsg.obj role content =>
      if role = some "user" then
        (match content with
         | JsContent.str s => Except.ok s
         | JsContent.arr bs => factsBlocksText bs
         | JsContent.other => Except.ok "").map
          (fun text => importantPatterns.filterMap (fun p => firstMatchStr p text))
      else Except.ok []

/-- the raw `facts` array accumulated over all messages, in push order. -/
def collectFacts : List JsMsg → Except String (List String)
  | [] => Except.ok []
  | m :: rest => do
      let a ← msgFacts m
      let b ← collectFacts rest
      pure (a ++ b)

/-- insertion-order set construction: keep each element whose value has not
been seen yet. -/
def dedupFirstAux (seen : List String) : List String → List String
  | [] => []
  | x :: xs =>
      if x ∈ seen then dedupFirstAux seen xs
      else x :: dedupFirstAux (x :: seen) xs

/-- `[...new Set(facts)]`: deduplication keeping the first occurrence of
each element, preserving order. -/
def dedupFirst (l : List String) : List String := dedupFirstAux [] l

/-- `extractKeyFacts(messages)`: first match of each pattern per user
message, deduplicated with set semantics, truncated to at most 5. -/
def extractKeyFacts (messages : List JsMsg) : Except String (List String) :=
  (collectFacts messages).map (fun facts => (dedupFirst facts).take 5)

-- ===========================================================================
-- Search-result parsing and the lifecycle controller
-- ===========================================================================

/-- the uniform tool-call envelope produced by `AthenaClient.callTool`:
ordered text blocks plus an error flag. -/
structure ToolResult where
  content : List String
  isError : Bool
  deriving DecidableEq, Repr

/-- one candidate of a parsed `smart_search` payload
(`{id, content, rrf_score}`); the score is embedded as a rational. -/
structure Candidate where
  id : String
  content : String
  rrf_score : ℚ
  deriving DecidableEq, Repr

/-- the integer of tenths produced by `(q * 100).toFixed(1)`: the nearest
multiple of one tenth, ties rounded up. -/
def pctTenths (q : ℚ) : ℤ := ⌊q * 1000 + 1/2⌋

/-- decimal rendering of `(q * 100).toFixed(1)` (relevance scores are
non-negative rrf scores, so no negative-zero subtlety arises). -/
def pctString (q : ℚ) : String :=
  let n := pctTenths q
  if n < 0 then
    "-" ++ toString (n.natAbs / 10) ++ "." ++ toString (n.natAbs % 10)
  else
    toString (n.toNat / 10) ++ "." ++ toString (n.toNat % 10)

/-- one line of `parseSearchResults`:
`[<pct>%] <id>: <content>`. -/
def formatCandidate (r : Candidate) : String :=
  "[" ++ pctString r.rrf_score ++ "%] " ++ r.id ++ ": " ++ r.content

/-- `parseSearchResults(resultText)`, with the outcome of `JSON.parse`
supplied as an oracle: on a successful parse the candidate list
`parsed.results?.results || []` is formatted line by line; when parsing
throws, the catch returns the raw text as a single entry. -/
def parseSearchResults (resultText : String) (payload : Option (List Candidate)) :
    List String :=
  match payload with
  | some cands => cands.map formatCandidate
  | none => [resultText]

/-- the host's `event.prompt`: absent (or any falsy value), a string, or an
array of strings. -/
inductive JsPrompt where
  | absent : JsPrompt
  | str (s : String) : JsPrompt
  | arr (ss : List String) : JsPrompt
  deriving DecidableEq, Repr

/-- the guard `event.prompt && event.prompt.length > 0` together with the
`userPrompt` construction: `none` when the guard fails, otherwise the
(space-joined) prompt string. -/
def promptText : JsPrompt → Option String
  | JsPrompt.absent => none
  | JsPrompt.str s => if s.length > 0 then some s else none
  | JsPrompt.arr ss =>
      if ss.length > 0 then some (String.intercalate " " ss) else none

/-- the observable calls the `before_agent_start` handler makes against the
Athena client, in order. -/
inductive RecallAction where
  | connect : RecallAction
  | search (query : String) (limit : Nat) (strict rerank : Bool) : RecallAction
  deriving DecidableEq, Repr

/-- the parts of the turn-start environment outside the handler's control:
whether `connect()` succeeds, the `ToolResult` the search returns, and the
outcome of `JSON.parse` on the first content block (`none` when parsing
throws; `some cands` with `cands` the list `parsed.results?.results || []`
otherwise). -/
structure RecallEnv where
  connectOk : Bool
  searchReply : ToolResult
  payload : Option (List Candidate)
  deriving DecidableEq, Repr

/-- header of the injected context message. -/
def contextHeader : String := "[Athena Memory] Relevant context from past sessions:"

/-- the `before_agent_start` handler: the client calls it performs, in
order, and the `prependContext` instruction it returns, if any.  `connect()`
is awaited before the prompt is examined; a throwing `connect()` or
`JSON.parse` lands in the catch-all, which suppresses injection. -/
def beforeAgentStart (env : RecallEnv) (prompt : JsPrompt) :
    List RecallAction × Option String :=
  if env.connectOk = false then
    ([RecallAction.connect], none)
  else
    match promptText prompt with
    | none => ([RecallAction.connect], none)
    | some userPrompt =>
        if userPrompt.length > 10 then
          let acts := [RecallAction.connect,
            RecallAction.search userPrompt 3 false false]
          if env.searchReply.isError = false ∧ env.searchReply.content.length > 0 then
            let resultText := env.searchReply.content.headD ""
            match env.payload with
            | none => (acts, none)
            | some cands =>
                let meaningful := cands.filter (fun r => r.rrf_score > 1/100)
                if meaningful.length > 0 then
                  (acts, some (contextHeader ++ "\n" ++
                    String.intercalate "\n" (parseSearchResults resultText (some cands))))
                else (acts, none)
          else (acts, none)
        else ([RecallAction.connect], none)

/-- the observable calls the `agent_end` handler makes against the Athena
client, in order. -/
inductive CtrlAction where
  | save (summary : String) (bullets : Option (List String)) : CtrlAction
  | disconnect : CtrlAction
  deriving DecidableEq, Repr

/-- body of the `agent_end` handler past its guards: compute the summary and
the key facts (either may throw on malformed content), issue `quicksave`
with the facts or `null`, then disconnect. -/
def agentEndBody (messages : List JsMsg) : Except String (List CtrlAction) := do
  let summary ← generateSummary messages
  let facts ← extractKeyFacts messages
  pure [CtrlAction.save summary (if facts.length > 0 then some facts else none),
    CtrlAction.disconnect]

/-- the `agent_end` handler: the client calls it performs, in order.
`messages = none` stands for an absent or null `event.messages`; a thrown
analyzer exception reaches the catch block, whose cleanup disconnects. -/
def agentEnd (success : Bool) (messages : Option (List JsMsg)) : List CtrlAction :=
  match messages with
  | none => [CtrlAction.disconnect]
  | some msgs =>
      if success = false ∨ msgs.length = 0 then [CtrlAction.disconnect]
      else if hasEnoughExchanges msgs = false then [CtrlAction.disconnect]
      else
        match agentEndBody msgs with
        | Except.ok acts => acts
        | Except.error _ => [CtrlAction.disconnect]

-- ===========================================================================
-- AthenaClient (athena-client.ts)
-- ===========================================================================

/-- the connection-relevant state of `AthenaClient`: whether `this.client`
and `this.transport` are set (the handles themselves are opaque) and the
`connected` flag.  The immutable `config` influences only which transport is
built, not any claim-relevant transition, and is omitted. -/
structure AthenaClient where
  client : Option Unit
  transport : Option Unit
  connected : Bool
  deriving DecidableEq, Repr

/-- `isConnected()`: pure status query. -/
def AthenaClient.isConnected (c : AthenaClient) : Bool := c.connected

/-- an `AthenaClient` as constructed: no handles, disconnected. -/
def AthenaClient.fresh : AthenaClient :=
  { client := none, transport := none, connected := false }

/-- where the underlying establishment fails, if it does: `earlyFail` is a
throw before `this.transport` is assigned (for example `new URL(sseUrl)` on
the SSE path); `handshakeFail` is a throw from
`this.client.connect(transport)`, after both `this.transport` and
`this.client` have been assigned; `ok` is a complete handshake.  The payload
is the JS string conversion of the thrown value. -/
inductive LowLevelOutcome where
  | ok : LowLevelOutcome
  | earlyFail (msg : String) : LowLevelOutcome
  | handshakeFail (msg : String) : LowLevelOutcome
  deriving DecidableEq, Repr

/-- `connectStdio` / `connectSSE`: assign the transport and client handles,
then run the SDK handshake. -/
def connectInner (c : AthenaClient) : LowLevelOutcome → AthenaClient × Except String Unit
  | LowLevelOutcome.ok =>
      ({ c with transport := some (), client := some () }, Except.ok ())
  | LowLevelOutcome.earlyFail m => (c, Except.error m)
  | LowLevelOutcome.handshakeFail m =>
      ({ c with transport := some (), client := some () }, Except.error m)

/-- `connect()`: no-op when already connected; otherwise run the
transport-specific establishment and set `connected` on success; the catch
clears only the `connected` flag and rethrows wrapped in the connection
error message. -/
def AthenaClient.connect (c : AthenaClient) (o : LowLevelOutcome) :
    AthenaClient × Except String Unit :=
  if c.connected then (c, Except.ok ())
  else
    match connectInner c o with
    | (c1, Except.ok ()) => ({ c1 with connected := true }, Except.ok ())
    | (c1, Except.error m) =>
        ({ c1 with connected := false },
         Except.error ("Failed to connect to Athena MCP server: " ++ m))

/-- `disconnect()`: close and drop the client, drop the transport, clear
`connected`. -/
def AthenaClient.disconnect (c : AthenaClient) : AthenaClient :=
  { c with client := none, transport := none, connected := false }

/-- a content block of the raw MCP reply: a text block, or any other block
(carried as the string `JSON.stringify` produces for it). -/
inductive RawBlock where
  | text (s : String) : RawBlock
  | nonText (json : String) : RawBlock
  deriving DecidableEq, Repr

/-- content normalization of `callTool`: a text block keeps its text, any
other block is serialized rather than dropped. -/
def normalizeBlock : RawBlock → String
  | RawBlock.text s => s
  | RawBlock.nonText j => j

/-- behaviour of the remote invocation `this.client.callTool(...)`: it
resolves with a content list and error flag, or it (or the transport)
faults with a thrown value whose string conversion is `msg`. -/
inductive RemoteOutcome where
  | ok (blocks : List RawBlock) (isError : Bool) : RemoteOutcome
  | fault (msg : String) : RemoteOutcome
  deriving DecidableEq, Repr

/-- the not-connected error message of `callTool`. -/
def notConnectedMsg : String := "AthenaClient not connected. Call connect() first."

/-- `callTool(name, args)`: throws the not-connected error when
`!this.client || !this.connected`; otherwise converts the remote reply,
catching any fault into an error-flagged result with a single diagnostic
text block.  The client state is never modified; `name` and `args` are
forwarded to the peer and do not influence the envelope shape. -/
def AthenaClient.callTool (c : AthenaClient) (name : String)
    (args : List (String × String)) (o : RemoteOutcome) :
    AthenaClient × Except String ToolResult :=
  if c.client = none ∨ c.connected = false then
    (c, Except.error notConnectedMsg)
  else
    match o with
    | RemoteOutcome.ok blocks isErr =>
        (c, Except.ok { content := blocks.map normalizeBlock, isError := isErr })
    | RemoteOutcome.fault m =>
        (c, Except.ok { content := ["Error: " ++ m], isError := true })

-- ===========================================================================
-- Configuration (config.ts)
-- ===========================================================================

/-- a JavaScript settings value, at the granularity the parser tests for:
a string, a boolean, or anything else. -/
inductive JsVal where
  | str (s : String) : JsVal
  | bool (b : Bool) : JsVal
  | other : JsVal
  deriving DecidableEq, Repr

/-- the two transports. -/
inductive AthenaTransport where
  | stdio : AthenaTransport
  | sse : AthenaTransport
  deriving DecidableEq, Repr

/-- the resolved `AthenaMemoryConfig`. -/
structure AthenaMemoryConfig where
  enabled : Bool
  transport : AthenaTransport
  pythonPath : String
  athenaProjectDir : String
  sseUrl : String
  toolPrefix : String
  deriving DecidableEq, Repr

/-- default tool-name prefix. -/
def DEFAULT_TOOL_PREFIX : String := "athena_"

/-- default Python executable. -/
def DEFAULT_PYTHON_PATH : String := "python3"

/-- default SSE endpoint. -/
def DEFAULT_SSE_URL : String := "http://localhost:8765"

/-- `resolveDefaultAthenaProjectDir()`, parameterized by `homedir()`. -/
def resolveDefaultAthenaProjectDir (home : String) : String :=
  home ++ "/Desktop/openclaw_codebase/Athena-Public"

/-- the recognized configuration keys. -/
def allowedConfigKeys : List String :=
  ["enabled", "transport", "pythonPath", "athenaProjectDir", "sseUrl", "toolPrefix"]

/-- the opening brace character. -/
def lbraceChar : Char := Char.ofNat 123

/-- the closing brace character. -/
def rbraceChar : Char := Char.ofNat 125

/-- auxiliary length bound used for the termination of `resolveChars`. -/
theorem lengthDropWhileLe {α : Type} (p : α → Bool) :
    ∀ l : List α, (l.dropWhile p).length ≤ l.length := by
  intro l
  induction l with
  | nil => simp [List.dropWhile]
  | cons a t ih =>
      simp only [List.dropWhile]
      cases p a <;> simp <;> omega

/-- split the scanner's remainder at the first closing brace: `none` when no
closing brace exists, otherwise the captured name (the run before the brace)
and the text after the brace. -/
def braceSplit (l : List Char) : Option (List Char × List Char) :=
  match l.dropWhile (fun d => d ≠ rbraceChar) with
  | [] => none
  | _ :: after => some (l.takeWhile (fun d => d ≠ rbraceChar), after)

/-- a successful `braceSplit` strictly shrinks the remainder. -/
theorem braceSplit_length {l nm after : List Char}
    (h : braceSplit l = some (nm, after)) : after.length < l.length := by
  unfold braceSplit at h
  cases hd : l.dropWhile (fun d => d ≠ rbraceChar) with
  | nil => rw [hd] at h; simp at h
  | cons x xs =>
      rw [hd] at h
      simp only [Option.some.injEq, Prod.mk.injEq] at h
      obtain ⟨h1, h2⟩ := h
      subst h2
      have hle : (l.dropWhile (fun d => d ≠ rbraceChar)).length ≤ l.length :=
        lengthDropWhileLe _ l
      rw [hd] at hle
      simp only [List.length_cons] at hle
      omega

/-- scan of `value.replace` over the interpolation pattern: each
dollar-brace-NAME-brace group (with non-empty NAME, NAME not containing a
closing brace) is replaced by the value of the environment variable NAME,
and a variable that is unset (or set to the empty string, which the `if
(!envValue)` test conflates with unset) throws; text without a full match is
copied verbatim; replacements are not rescanned. -/
def resolveChars (env : String → Option String) : List Char → Except String (List Char)
  | [] => Except.ok []
  | c :: rest =>
      if c = '$' then
        match rest with
        | [] => Except.ok [c]
        | b :: rest2 =>
            if b = lbraceChar then
              match hbs : braceSplit rest2 with
              | none => (resolveChars env (b :: rest2)).map (fun t => c :: t)
              | some (nm, after) =>
                  if nm.isEmpty then
                    (resolveChars env (b :: rest2)).map (fun t => c :: t)
                  else
                    match env (String.mk nm) with
                    | none =>
                        Except.error
                          ("Environment variable " ++ String.mk nm ++ " is not set")
                    | some v =>
                        if v = "" then
                          Except.error
                            ("Environment variable " ++ String.mk nm ++ " is not set")
                        else
                          (resolveChars env after).map (fun t => v.data ++ t)
            else
              (resolveChars env (b :: rest2)).map (fun t => c :: t)
      else
        (resolveChars env rest).map (fun t => c :: t)
termination_by l => l.length
decreasing_by
  all_goals simp_wf
  all_goals try omega
  all_goals have h := braceSplit_length hbs
  all_goals omega

/-- `resolveEnvVars(value)`. -/
def resolveEnvVars (env : String → Option String) (s : String) : Except String String :=
  (resolveChars env s.data).map String.mk

/-- JS object property lookup on the settings object, embedded as an
association list with the (distinct) keys of the object. -/
def jsLookup (cfg : List (String × JsVal)) (k : String) : Option JsVal :=
  (cfg.find? (fun p => p.1 = k)).map (fun p => p.2)

/-- the shared shape of the three interpolated string fields:
`typeof v === "string" ? resolveEnvVars(v) : default`. -/
def parseStrField (env : String → Option String) (v : Option JsVal) (dflt : String) :
    Except String String :=
  match v with
  | some (JsVal.str s) => resolveEnvVars env s
  | _ => Except.ok dflt

/-- `athenaMemoryConfigSchema.parse`, parameterized by the process
environment and `homedir()`.  Unrecognized keys throw before any field is
read; `enabled` is strict-equality against boolean true; `transport` is
`"sse"` only for the exact string, anything else silently becomes
`"stdio"`; the three interpolated string fields fall back to their defaults
on any non-string value; `toolPrefix` is taken verbatim, without
interpolation. -/
def athenaMemoryConfigParse (env : String → Option String) (home : String)
    (cfg : List (String × JsVal)) : Except String AthenaMemoryConfig :=
  let unknown := (cfg.map (fun p => p.1)).filter (fun k => ¬ allowedConfigKeys.contains k)
  if unknown ≠ [] then
    Except.error ("Athena memory config has unknown keys: " ++
      String.intercalate ", " unknown)
  else do
    let pythonPath ← parseStrField env (jsLookup cfg "pythonPath") DEFAULT_PYTHON_PATH
    let athenaProjectDir ← parseStrField env (jsLookup cfg "athenaProjectDir")
      (resolveDefaultAthenaProjectDir home)
    let sseUrl ← parseStrField env (jsLookup cfg "sseUrl") DEFAULT_SSE_URL
    pure {
      enabled := jsLookup cfg "enabled" == some (JsVal.bool true),
      transport :=
        if jsLookup cfg "transport" = some (JsVal.str "sse") then AthenaTransport.sse
        else AthenaTransport.stdio,
      pythonPath := pythonPath,
      athenaProjectDir := athenaProjectDir,
      sseUrl := sseUrl,
      toolPrefix :=
        match jsLookup cfg "toolPrefix" with
        | some (JsVal.str s) => s
        | _ => DEFAULT_TOOL_PREFIX }

-- ===========================================================================
-- Claims
-- ===========================================================================

/-- C7: the claim states that `generateSummary` never raises on any message
list, including malformed input.  The code violates this: for a user message
whose content array contains JS `null`, the guard
`typeof block === "object"` passes (`typeof null` is `"object"`) and
`"text" in null` throws a `TypeError`.  This theorem evaluates the embedded
`generateSummary` at that failing input and shows it raises. -/
theorem C7_generateSummary_raises_on_null_block :
    generateSummary [JsMsg.obj (some "user") (JsContent.arr [JsBlock.jnull])] =
      Except.error typeErrorMsg := rfl

/-- C2: for every successful turn-end with a non-empty message list holding
fewer than 2 messages of role `user`, `hasEnoughExchanges` is false and the
`agent_end` handler performs no save, only the disconnect. -/
theorem C2_no_save_below_two_user_messages (msgs : List JsMsg)
    (hne : msgs ≠ []) (hcount : countUserMessages msgs < 2) :
    hasEnoughExchanges msgs = false ∧
      agentEnd true (some msgs) = [CtrlAction.disconnect] := by
  have hfalse : hasEnoughExchanges msgs = false := by
    simp [hasEnoughExchanges]
    omega
  have hlen : ¬ msgs.length = 0 := fun h => hne (List.length_eq_zero.mp h)
  refine ⟨hfalse, ?_⟩
  simp [agentEnd, hlen, hfalse]

/-- C2 witness: the end-to-end scenario of the spec, a single user message
`"hi"`. -/
theorem C2_witness :
    hasEnoughExchanges [JsMsg.obj (some "user") (JsContent.str "hi")] = false ∧
      agentEnd true (some [JsMsg.obj (some "user") (JsContent.str "hi")]) =
        [CtrlAction.disconnect] :=
  C2_no_save_below_two_user_messages _ (by decide) (by decide)

/-- C9: on any session whose `connected` flag is not set (fresh, after a
failed connect, or after disconnect), `callTool` fails with the
not-connected error — the remote outcome oracle is never consulted, so the
failure is not a transport-level fault — and the state is returned
unchanged: no auto-connect. -/
theorem C9_callTool_not_connected (c : AthenaClient) (name : String)
    (args : List (String × String)) (o : RemoteOutcome)
    (h : c.connected = false) :
    c.callTool name args o = (c, Except.error notConnectedMsg) := by
  unfold AthenaClient.callTool
  rw [if_pos (Or.inr h)]

/-- C9 witness: `invoke` before any `connect` on a fresh client. -/
theorem C9_witness :
    AthenaClient.fresh.callTool "smart_search" []
      (RemoteOutcome.fault "ECONNREFUSED") =
      (AthenaClient.fresh, Except.error notConnectedMsg) :=
  C9_callTool_not_connected AthenaClient.fresh "smart_search" [] _ rfl

/-- C5: on a connected session, `callTool` never propagates a raised fault:
for every tool name, argument object and remote outcome it returns a
`ToolResult`, and when the remote invocation or the transport faults the
result has the error flag set and exactly one diagnostic text block. -/
theorem C5_callTool_never_raises (c : AthenaClient) (name : String)
    (args : List (String × String)) (o : RemoteOutcome)
    (hcl : c.client ≠ none) (hco : c.connected = true) :
    (∃ r : ToolResult, (c.callTool name args o).2 = Except.ok r) ∧
      (∀ m, o = RemoteOutcome.fault m →
        (c.callTool name args o).2 =
          Except.ok { content := ["Error: " ++ m], isError := true }) := by
  have hcond : ¬ (c.client = none ∨ c.connected = false) := by
    rintro (h | h)
    · exact hcl h
    · rw [hco] at h
      cases h
  unfold AthenaClient.callTool
  rw [if_neg hcond]
  constructor
  · cases o with
    | ok blocks isErr => exact ⟨_, rfl⟩
    | fault m => exact ⟨_, rfl⟩
  · intro m hm
    subst hm
    rfl

/-- C5 witness: a transport fault on a connected client becomes an
error-flagged result with a single diagnostic block. -/
theorem C5_witness :
    (∃ r : ToolResult,
      (AthenaClient.callTool
        { client := some (), transport := some (), connected := true }
        "smart_search" [] (RemoteOutcome.fault "timeout")).2 = Except.ok r) ∧
      (∀ m, RemoteOutcome.fault "timeout" = RemoteOutcome.fault m →
        (AthenaClient.callTool
          { client := some (), transport := some (), connected := true }
          "smart_search" [] (RemoteOutcome.fault "timeout")).2 =
          Except.ok { content := ["Error: " ++ m], isError := true }) :=
  C5_callTool_never_raises
    { client := some (), transport := some (), connected := true }
    "smart_search" [] (RemoteOutcome.fault "timeout") (by decide) rfl

/-- C4 counterexample: the claim states that after a failed `connect()` the
session retains no client or transport reference.  On a fresh client whose
handshake fails, the call does fail, yet the client handle is still set:
the catch clears only the `connected` flag. -/
theorem C4_counterexample :
    ((AthenaClient.fresh.connect (LowLevelOutcome.handshakeFail "boom")).2 =
        Except.error "Failed to connect to Athena MCP server: boom") ∧
      ((AthenaClient.fresh.connect (LowLevelOutcome.handshakeFail "boom")).1).client ≠
        none ∧
      ((AthenaClient.fresh.connect
        (LowLevelOutcome.handshakeFail "boom")).1).transport ≠ none :=
  ⟨rfl, by decide, by decide⟩

/-- C4 (amended): on any disconnected session, a failed `connect()` fails
with the connection error carrying the underlying cause and leaves
`isConnected()` false; but when the failure happens during the handshake the
`client` and `transport` references remain set (they are cleared only by
`disconnect()`); only a failure preceding the transport assignment (an
invalid SSE URL) leaves the handles as they were. -/
theorem C4_failed_connect_state (c : AthenaClient) (m : String)
    (h : c.connected = false) :
    ((c.connect (LowLevelOutcome.handshakeFail m)).2 =
        Except.error ("Failed to connect to Athena MCP server: " ++ m) ∧
      ((c.connect (LowLevelOutcome.handshakeFail m)).1).isConnected = false ∧
      ((c.connect (LowLevelOutcome.handshakeFail m)).1).client = some () ∧
      ((c.connect (LowLevelOutcome.handshakeFail m)).1).transport = some ()) ∧
      ((c.connect (LowLevelOutcome.earlyFail m)).2 =
        Except.error ("Failed to connect to Athena MCP server: " ++ m) ∧
      (c.connect (LowLevelOutcome.earlyFail m)).1 = { c with connected := false }) := by
  have hcond : ¬ (c.connected = true) := by
    rw [h]
    intro hx
    cases hx
  unfold AthenaClient.connect connectInner AthenaClient.isConnected
  rw [if_neg hcond, if_neg hcond]
  exact ⟨⟨rfl, rfl, rfl, rfl⟩, rfl, rfl⟩

/-- C4 witness: the amended statement at a fresh client and cause
`"boom"`. -/
theorem C4_witness :
    ((AthenaClient.fresh.connect (LowLevelOutcome.handshakeFail "boom")).2 =
        Except.error ("Failed to connect to Athena MCP server: " ++ "boom") ∧
      ((AthenaClient.fresh.connect
        (LowLevelOutcome.handshakeFail "boom")).1).isConnected = false ∧
      ((AthenaClient.fresh.connect
        (LowLevelOutcome.handshakeFail "boom")).1).client = some () ∧
      ((AthenaClient.fresh.connect
        (LowLevelOutcome.handshakeFail "boom")).1).transport = some ()) ∧
      ((AthenaClient.fresh.connect (LowLevelOutcome.earlyFail "boom")).2 =
        Except.error ("Failed to connect to Athena MCP server: " ++ "boom") ∧
      (AthenaClient.fresh.connect (LowLevelOutcome.earlyFail "boom")).1 =
        { AthenaClient.fresh with connected := false }) :=
  C4_failed_connect_state AthenaClient.fresh "boom" rfl

/-- C3 counterexample: the claim states that on a skipped turn-start (absent
prompt) the Controller does not connect the session.  The handler awaits
`connect()` before it ever looks at the prompt, so the trace of an
absent-prompt turn-start contains the connect call. -/
theorem C3_counterexample :
    (beforeAgentStart
      { connectOk := true, searchReply := { content := [], isError := false },
        payload := none } JsPrompt.absent).1 = [RecallAction.connect] ∧
      RecallAction.connect ∈ (beforeAgentStart
        { connectOk := true, searchReply := { content := [], isError := false },
          payload := none } JsPrompt.absent).1 := by
  constructor
  · rfl
  · decide

/-- C3 (amended): the Controller attempts to connect on every turn-start —
the trace always begins with the connect call — and when the prompt is
absent, empty, or of length at most 10 it performs nothing else: no search
invocation and no prepend-context instruction. -/
theorem C3_connects_eagerly_skips_search (env : RecallEnv) (p : JsPrompt) :
    ((beforeAgentStart env p).1.head? = some RecallAction.connect) ∧
      ((promptText p = none ∨ ∃ s, promptText p = some s ∧ s.length ≤ 10) →
        beforeAgentStart env p = ([RecallAction.connect], none)) := by
  rcases env with ⟨cok, reply, payload⟩
  constructor
  · unfold beforeAgentStart
    repeat' split
    all_goals try rfl
    all_goals (dsimp only; split <;> rfl)
  · rintro (hnone | ⟨s, hs, hle⟩)
    · cases cok
      · simp [beforeAgentStart]
      · simp [beforeAgentStart, hnone]
    · have hlen : ¬ s.length > 10 := by omega
      cases cok
      · simp [beforeAgentStart]
      · simp [beforeAgentStart, hs, hlen]

/-- C3 witness: the amended statement at an absent prompt. -/
theorem C3_witness :
    beforeAgentStart
      { connectOk := false, searchReply := { content := [], isError := true },
        payload := none } JsPrompt.absent = ([RecallAction.connect], none) :=
  (C3_connects_eagerly_skips_search _ _).2 (Or.inl rfl)


/-- split a character list at newlines (the lines of an injected context
message). -/
def splitNl : List Char → List (List Char)
  | [] => [[]]
  | c :: rest =>
      if c = '\n' then [] :: splitNl rest
      else
        match splitNl rest with
        | [] => [[c]]
        | l :: ls => (c :: l) :: ls

/-- the environment of the C1 counterexample: a successful search reply
whose payload parses to two candidates, one at score 0.25 and one at 0.005
(at most the 0.01 threshold). -/
def c1CexEnv : RecallEnv :=
  { connectOk := true,
    searchReply := { content := ["raw"], isError := false },
    payload := some [{ id := "m1", content := "alpha", rrf_score := 1/4 },
      { id := "m2", content := "beta", rrf_score := 1/200 }] }

/-- C1 counterexample: the claim states that the injected instruction
contains no line for a filtered-out candidate.  With one candidate at score
0.25 and one at 0.005, the handler injects — and the instruction contains
the scored line of the candidate whose score does not exceed the 0.01
threshold, because the text is rebuilt by `parseSearchResults` over the full
parsed list. -/
theorem C1_counterexample :
    ((beforeAgentStart c1CexEnv (JsPrompt.str "What is my phone number")).2 =
        some ("[Athena Memory] Relevant context from past sessions:\n" ++
          "[25.0%] m1: alpha\n[0.5%] m2: beta")) ∧
      (splitNl ("[Athena Memory] Relevant context from past sessions:\n" ++
          "[25.0%] m1: alpha\n[0.5%] m2: beta").data).contains
        (formatCandidate { id := "m2", content := "beta", rrf_score := 1/200 }).data =
        true ∧
      ¬ ((1 : ℚ)/200 > 1/100) := by
  have h1 : ((1 : ℚ)/4 > 1/100) := by norm_num
  have h2 : ¬ ((1 : ℚ)/200 > 1/100) := by norm_num
  have ht1 : pctTenths ((1 : ℚ)/4) = 250 := by norm_num [pctTenths]
  have ht2 : pctTenths ((1 : ℚ)/200) = 5 := by norm_num [pctTenths]
  have hpct1 : pctString ((1 : ℚ)/4) = "25.0" := by
    simp only [pctString, ht1]
    decide
  have hpct2 : pctString ((1 : ℚ)/200) = "0.5" := by
    simp only [pctString, ht2]
    decide
  have hfmt1 : formatCandidate { id := "m1", content := "alpha", rrf_score := 1/4 } =
      "[25.0%] m1: alpha" := by
    simp only [formatCandidate, hpct1]
    decide
  have hfmt2 : formatCandidate { id := "m2", content := "beta", rrf_score := 1/200 } =
      "[0.5%] m2: beta" := by
    simp only [formatCandidate, hpct2]
    decide
  refine ⟨?_, ?_, h2⟩
  · simp only [beforeAgentStart, c1CexEnv, promptText, parseSearchResults]
    norm_num [List.filter, h1, h2]
    rw [hfmt1, hfmt2]
    decide
  · rw [hfmt2]
    decide

/-- C1 (amended): on a qualifying prompt and a successful search reply whose
payload parses to a candidate list, the score filter (> 0.01) decides only
whether an instruction is returned at all: no candidate above the threshold
means no instruction, and otherwise the single instruction's text carries
one scored line for every candidate of the entire parsed list — including
the filtered-out ones — each score formatted as a one-decimal percentage,
with score 0.25 rendering as 25.0%. -/
theorem C1_recall_formats_all_candidates (reply : ToolResult)
    (cands : List Candidate) (p : String) (hp : p.length > 10)
    (herr : reply.isError = false) (hcont : reply.content ≠ []) :
    ((cands.filter (fun r => r.rrf_score > 1/100) = [] →
        (beforeAgentStart
          { connectOk := true, searchReply := reply, payload := some cands }
          (JsPrompt.str p)).2 = none) ∧
      (cands.filter (fun r => r.rrf_score > 1/100) ≠ [] →
        (beforeAgentStart
          { connectOk := true, searchReply := reply, payload := some cands }
          (JsPrompt.str p)).2 =
          some (contextHeader ++ "\n" ++
            String.intercalate "\n" (cands.map formatCandidate))) ∧
      (∀ i s, formatCandidate { id := i, content := s, rrf_score := 1/4 } =
        "[25.0%] " ++ i ++ ": " ++ s)) := by
  have hp0 : p.length > 0 := by omega
  have hlen : reply.content.length > 0 := List.length_pos.mpr hcont
  have hpct1 : pctString ((1 : ℚ)/4) = "25.0" := by
    have ht1 : pctTenths ((1 : ℚ)/4) = 250 := by norm_num [pctTenths]
    simp only [pctString, ht1]
    decide
  refine ⟨?_, ?_, ?_⟩
  · intro hemp
    simp only [gt_iff_lt, one_div] at hemp
    simp [beforeAgentStart, promptText, hp0, hp, herr, hlen, hemp]
  · intro hne
    have hpos : 0 < (cands.filter (fun r => r.rrf_score > 1/100)).length :=
      List.length_pos.mpr hne
    simp only [gt_iff_lt, one_div] at hpos
    simp [beforeAgentStart, promptText, parseSearchResults, hp0, hp, herr, hlen,
      hpos]
  · intro i s
    show "[" ++ pctString ((1 : ℚ)/4) ++ "%] " ++ i ++ ": " ++ s =
      "[25.0%] " ++ i ++ ": " ++ s
    rw [hpct1]
    rfl

/-- the reply of the C1 witness scenario. -/
def c1WitnessReply : ToolResult := { content := ["raw"], isError := false }

/-- the single candidate of the C1 witness scenario, at score 0.5. -/
def c1WitnessCands : List Candidate :=
  [{ id := "m1", content := "alpha", rrf_score := 1/2 }]

/-- C1 witness: the amended statement at the spec's end-to-end scenario, one
candidate at score 0.5 and a prompt longer than 10 characters. -/
theorem C1_witness :
    ((c1WitnessCands.filter (fun r => r.rrf_score > 1/100) = [] →
        (beforeAgentStart
          { connectOk := true, searchReply := c1WitnessReply,
            payload := some c1WitnessCands }
          (JsPrompt.str "What is my phone number")).2 = none) ∧
      (c1WitnessCands.filter (fun r => r.rrf_score > 1/100) ≠ [] →
        (beforeAgentStart
          { connectOk := true, searchReply := c1WitnessReply,
            payload := some c1WitnessCands }
          (JsPrompt.str "What is my phone number")).2 =
          some (contextHeader ++ "\n" ++
            String.intercalate "\n" (c1WitnessCands.map formatCandidate))) ∧
      (∀ i s, formatCandidate { id := i, content := s, rrf_score := 1/4 } =
        "[25.0%] " ++ i ++ ": " ++ s)) :=
  C1_recall_formats_all_candidates c1WitnessReply c1WitnessCands
    "What is my phone number" (by decide) rfl (by decide)

/-- `takeWhile` over a run that satisfies the predicate followed by a
failing element keeps exactly the run. -/
theorem takeWhileAppendAll {α : Type} (p : α → Bool) (l : List α) (x : α)
    (hall : ∀ a ∈ l, p a = true) (hx : p x = false) :
    (l ++ [x]).takeWhile p = l := by
  induction l with
  | nil => simp [List.takeWhile, hx]
  | cons a t ih =>
      have ha := hall a (by simp)
      simp only [List.cons_append, List.takeWhile_cons, ha, if_true]
      rw [ih (fun b hb => hall b (by simp [hb]))]

/-- `dropWhile` over a run that satisfies the predicate followed by a
failing element drops exactly the run. -/
theorem dropWhileAppendAll {α : Type} (p : α → Bool) (l : List α) (x : α)
    (hall : ∀ a ∈ l, p a = true) (hx : p x = false) :
    (l ++ [x]).dropWhile p = [x] := by
  induction l with
  | nil => simp [List.dropWhile, hx]
  | cons a t ih =>
      have ha := hall a (by simp)
      simp only [List.cons_append, List.dropWhile_cons, ha, if_true]
      exact ih (fun b hb => hall b (by simp [hb]))

/-- the literal interpolation reference: dollar, open brace, the variable
name, close brace. -/
def interpString (v : String) : String :=
  "$" ++ String.mk [lbraceChar] ++ v ++ String.mk [rbraceChar]

/-- interpolating a single whole-string reference to an unset variable
throws the configuration error naming the variable. -/
theorem resolveEnvVars_unset (env : String → Option String) (v : String)
    (hv : v ≠ "") (hb : rbraceChar ∉ v.data) (he : env v = none) :
    resolveEnvVars env (interpString v) =
      Except.error ("Environment variable " ++ v ++ " is not set") := by
  have hdata : (interpString v).data =
      '$' :: lbraceChar :: (v.data ++ [rbraceChar]) := by
    simp [interpString]
  have hmk : String.mk v.data = v := by
    cases v
    rfl
  have hsplit : braceSplit (v.data ++ [rbraceChar]) = some (v.data, []) := by
    unfold braceSplit
    rw [dropWhileAppendAll _ _ _
        (fun a ha => by
          simp only [ne_eq, decide_eq_true_eq]
          exact fun h => hb (h ▸ ha))
        (by simp),
      takeWhileAppendAll _ _ _
        (fun a ha => by
          simp only [ne_eq, decide_eq_true_eq]
          exact fun h => hb (h ▸ ha))
        (by simp)]
  have hvd : v.data ≠ [] := fun h => hv (String.ext (by simp [h]))
  unfold resolveEnvVars
  rw [hdata, resolveChars]
  simp only [reduceIte]
  split
  · rename_i hbs
    rw [hsplit] at hbs
    simp at hbs
  · rename_i nm after hbs
    rw [hsplit] at hbs
    simp only [Option.some.injEq, Prod.mk.injEq] at hbs
    obtain ⟨h1, h2⟩ := hbs
    subst h1
    subst h2
    simp [hvd, hmk, he]
    rfl

/-- C6 counterexample: the claim states that every string configuration
field, `toolPrefix` included, supports interpolation and that an unset
referenced variable makes parsing fail.  With every environment variable
unset, parsing a settings object whose `toolPrefix` references an unset
variable succeeds, and the reference is kept verbatim: the parser never
interpolates `toolPrefix`. -/
theorem C6_counterexample :
    athenaMemoryConfigParse (fun _ => none) "/home/u"
      [("toolPrefix", JsVal.str (interpString "UNSET"))] =
      Except.ok
        { enabled := false, transport := AthenaTransport.stdio,
          pythonPath := DEFAULT_PYTHON_PATH,
          athenaProjectDir := resolveDefaultAthenaProjectDir "/home/u",
          sseUrl := DEFAULT_SSE_URL,
          toolPrefix := interpString "UNSET" } := rfl

/-- C6 (amended): parsing fails on any unrecognized key, and the three
interpolated string fields — `pythonPath`, `athenaProjectDir`, `sseUrl` —
support dollar-brace environment references, an unset referenced variable
being a fatal error; `toolPrefix` however is taken verbatim, with no
interpolation and no failure on unset references. -/
theorem C6_config_validation (env : String → Option String) (home : String)
    (v : String) (hv : v ≠ "") (hb : rbraceChar ∉ v.data) (he : env v = none) :
    ((∀ cfg : List (String × JsVal),
        (∃ k ∈ cfg.map (fun p => p.1), allowedConfigKeys.contains k = false) →
        ∃ e, athenaMemoryConfigParse env home cfg = Except.error e) ∧
      athenaMemoryConfigParse env home [("pythonPath", JsVal.str (interpString v))] =
        Except.error ("Environment variable " ++ v ++ " is not set") ∧
      athenaMemoryConfigParse env home
          [("athenaProjectDir", JsVal.str (interpString v))] =
        Except.error ("Environment variable " ++ v ++ " is not set") ∧
      athenaMemoryConfigParse env home [("sseUrl", JsVal.str (interpString v))] =
        Except.error ("Environment variable " ++ v ++ " is not set") ∧
      athenaMemoryConfigParse env home [("toolPrefix", JsVal.str (interpString v))] =
        Except.ok
          { enabled := false, transport := AthenaTransport.stdio,
            pythonPath := DEFAULT_PYTHON_PATH,
            athenaProjectDir := resolveDefaultAthenaProjectDir home,
            sseUrl := DEFAULT_SSE_URL, toolPrefix := interpString v }) := by
  have herr := resolveEnvVars_unset env v hv hb he
  refine ⟨?_, ?_, ?_, ?_, rfl⟩
  · intro cfg ⟨k, hk, hnk⟩
    have hmem : k ∈ (cfg.map (fun p => p.1)).filter
        (fun k => ¬ allowedConfigKeys.contains k) := by
      rw [List.mem_filter]
      refine ⟨hk, ?_⟩
      simpa using hnk
    unfold athenaMemoryConfigParse
    rw [if_pos (List.ne_nil_of_mem hmem)]
    exact ⟨_, rfl⟩
  · simp [athenaMemoryConfigParse, jsLookup, parseStrField, herr, allowedConfigKeys]
    rfl
  · simp [athenaMemoryConfigParse, jsLookup, parseStrField, herr, allowedConfigKeys]
    rfl
  · simp [athenaMemoryConfigParse, jsLookup, parseStrField, herr, allowedConfigKeys]
    rfl

/-- C6 witness: the amended statement with every environment variable unset
and the reference `UNSET`. -/
theorem C6_witness :
    ((∀ cfg : List (String × JsVal),
        (∃ k ∈ cfg.map (fun p => p.1), allowedConfigKeys.contains k = false) →
        ∃ e, athenaMemoryConfigParse (fun _ => none) "/home/u" cfg =
          Except.error e) ∧
      athenaMemoryConfigParse (fun _ => none) "/home/u"
          [("pythonPath", JsVal.str (interpString "UNSET"))] =
        Except.error ("Environment variable " ++ "UNSET" ++ " is not set") ∧
      athenaMemoryConfigParse (fun _ => none) "/home/u"
          [("athenaProjectDir", JsVal.str (interpString "UNSET"))] =
        Except.error ("Environment variable " ++ "UNSET" ++ " is not set") ∧
      athenaMemoryConfigParse (fun _ => none) "/home/u"
          [("sseUrl", JsVal.str (interpString "UNSET"))] =
        Except.error ("Environment variable " ++ "UNSET" ++ " is not set") ∧
      athenaMemoryConfigParse (fun _ => none) "/home/u"
          [("toolPrefix", JsVal.str (interpString "UNSET"))] =
        Except.ok
          { enabled := false, transport := AthenaTransport.stdio,
            pythonPath := DEFAULT_PYTHON_PATH,
            athenaProjectDir := resolveDefaultAthenaProjectDir "/home/u",
            sseUrl := DEFAULT_SSE_URL, toolPrefix := interpString "UNSET" }) :=
  C6_config_validation (fun _ => none) "/home/u" "UNSET" (by decide) (by decide) rfl

/-- a string field whose referenced variables all resolve parses to the
interpolated string, and to its default on any non-string value. -/
theorem parseStrField_ok (env : String → Option String) (v : Option JsVal)
    (dflt : String)
    (h : ∀ s, v = some (JsVal.str s) → ∃ r, resolveEnvVars env s = Except.ok r) :
    ∃ r, parseStrField env v dflt = Except.ok r ∧
      ((∀ s, v ≠ some (JsVal.str s)) → r = dflt) := by
  cases v with
  | none => exact ⟨dflt, rfl, fun _ => rfl⟩
  | some jv =>
      cases jv with
      | str s =>
          obtain ⟨r, hr⟩ := h s rfl
          exact ⟨r, by simp [parseStrField, hr], fun hne => absurd rfl (hne s)⟩
      | bool b => exact ⟨dflt, rfl, fun _ => rfl⟩
      | other => exact ⟨dflt, rfl, fun _ => rfl⟩

/-- C10: configuration parsing never rejects a recognized key over its
value's type: with only recognized keys and all referenced environment
variables resolving, parsing succeeds; `transport` is `sse` exactly when the
value is the string `"sse"` and silently `stdio` otherwise; `enabled` is
true exactly when the value is boolean `true`; and a non-string
`pythonPath`, `athenaProjectDir`, `sseUrl` or `toolPrefix` silently falls
back to its default. -/
theorem C10_parse_lenient (env : String → Option String) (home : String)
    (cfg : List (String × JsVal))
    (hkeys : ∀ k ∈ cfg.map (fun p => p.1), allowedConfigKeys.contains k = true)
    (hpy : ∀ s, jsLookup cfg "pythonPath" = some (JsVal.str s) →
      ∃ r, resolveEnvVars env s = Except.ok r)
    (hdir : ∀ s, jsLookup cfg "athenaProjectDir" = some (JsVal.str s) →
      ∃ r, resolveEnvVars env s = Except.ok r)
    (hurl : ∀ s, jsLookup cfg "sseUrl" = some (JsVal.str s) →
      ∃ r, resolveEnvVars env s = Except.ok r) :
    ∃ c : AthenaMemoryConfig,
      athenaMemoryConfigParse env home cfg = Except.ok c ∧
      (c.enabled = true ↔ jsLookup cfg "enabled" = some (JsVal.bool true)) ∧
      (c.transport = AthenaTransport.sse ↔
        jsLookup cfg "transport" = some (JsVal.str "sse")) ∧
      ((∀ s, jsLookup cfg "pythonPath" ≠ some (JsVal.str s)) →
        c.pythonPath = DEFAULT_PYTHON_PATH) ∧
      ((∀ s, jsLookup cfg "athenaProjectDir" ≠ some (JsVal.str s)) →
        c.athenaProjectDir = resolveDefaultAthenaProjectDir home) ∧
      ((∀ s, jsLookup cfg "sseUrl" ≠ some (JsVal.str s)) →
        c.sseUrl = DEFAULT_SSE_URL) ∧
      ((∀ s, jsLookup cfg "toolPrefix" ≠ some (JsVal.str s)) →
        c.toolPrefix = DEFAULT_TOOL_PREFIX) := by
  obtain ⟨py, hpyok, hpyd⟩ :=
    parseStrField_ok env (jsLookup cfg "pythonPath") DEFAULT_PYTHON_PATH hpy
  obtain ⟨dir, hdirok, hdird⟩ :=
    parseStrField_ok env (jsLookup cfg "athenaProjectDir")
      (resolveDefaultAthenaProjectDir home) hdir
  obtain ⟨url, hurlok, hurld⟩ :=
    parseStrField_ok env (jsLookup cfg "sseUrl") DEFAULT_SSE_URL hurl
  have hunk : (cfg.map (fun p => p.1)).filter
      (fun k => ¬ allowedConfigKeys.contains k) = [] := by
    rw [List.filter_eq_nil_iff]
    intro a ha
    simpa using hkeys a ha
  refine
    ⟨{ enabled := jsLookup cfg "enabled" == some (JsVal.bool true),
       transport :=
         if jsLookup cfg "transport" = some (JsVal.str "sse") then
           AthenaTransport.sse
         else AthenaTransport.stdio,
       pythonPath := py, athenaProjectDir := dir, sseUrl := url,
       toolPrefix :=
         match jsLookup cfg "toolPrefix" with
         | some (JsVal.str s) => s
         | _ => DEFAULT_TOOL_PREFIX },
      ?_, ?_, ?_, hpyd, hdird, hurld, ?_⟩
  · unfold athenaMemoryConfigParse
    rw [hunk]
    simp only [ne_eq, not_true_eq_false, if_false, reduceIte]
    rw [hpyok, hdirok, hurlok]
    rfl
  · simp
  · by_cases h : jsLookup cfg "transport" = some (JsVal.str "sse") <;> simp [h]
  · intro hne
    cases hl : jsLookup cfg "toolPrefix" with
    | none => rfl
    | some jv =>
        cases jv with
        | str s => exact absurd hl (hne s)
        | bool b => rfl
        | other => rfl

/-- C10 witness: invalid-typed values for every field parse successfully,
with `transport` falling back to `stdio`, `enabled` to false, and
`pythonPath` to its default. -/
theorem C10_witness :
    ∃ c : AthenaMemoryConfig,
      athenaMemoryConfigParse (fun _ => none) "/home/u"
        [("enabled", JsVal.other), ("transport", JsVal.str "bogus"),
          ("pythonPath", JsVal.bool false)] = Except.ok c ∧
      (c.enabled = true ↔ jsLookup
        [("enabled", JsVal.other), ("transport", JsVal.str "bogus"),
          ("pythonPath", JsVal.bool false)] "enabled" = some (JsVal.bool true)) ∧
      (c.transport = AthenaTransport.sse ↔ jsLookup
        [("enabled", JsVal.other), ("transport", JsVal.str "bogus"),
          ("pythonPath", JsVal.bool false)] "transport" = some (JsVal.str "sse")) ∧
      ((∀ s, jsLookup
        [("enabled", JsVal.other), ("transport", JsVal.str "bogus"),
          ("pythonPath", JsVal.bool false)] "pythonPath" ≠ some (JsVal.str s)) →
        c.pythonPath = DEFAULT_PYTHON_PATH) ∧
      ((∀ s, jsLookup
        [("enabled", JsVal.other), ("transport", JsVal.str "bogus"),
          ("pythonPath", JsVal.bool false)] "athenaProjectDir" ≠
          some (JsVal.str s)) →
        c.athenaProjectDir = resolveDefaultAthenaProjectDir "/home/u") ∧
      ((∀ s, jsLookup
        [("enabled", JsVal.other), ("transport", JsVal.str "bogus"),
          ("pythonPath", JsVal.bool false)] "sseUrl" ≠ some (JsVal.str s)) →
        c.sseUrl = DEFAULT_SSE_URL) ∧
      ((∀ s, jsLookup
        [("enabled", JsVal.other), ("transport", JsVal.str "bogus"),
          ("pythonPath", JsVal.bool false)] "toolPrefix" ≠ some (JsVal.str s)) →
        c.toolPrefix = DEFAULT_TOOL_PREFIX) :=
  C10_parse_lenient (fun _ => none) "/home/u"
    [("enabled", JsVal.other), ("transport", JsVal.str "bogus"),
      ("pythonPath", JsVal.bool false)]
    (by decide)
    (fun s h => by simp [jsLookup] at h)
    (fun s h => by simp [jsLookup] at h)
    (fun s h => by simp [jsLookup] at h)

/-- the deduplicated list is an order-preserving sublist of the input. -/
theorem dedupFirstAux_sublist (l : List String) :
    ∀ seen, (dedupFirstAux seen l).Sublist l := by
  induction l with
  | nil => intro seen; simp [dedupFirstAux]
  | cons x xs ih =>
      intro seen
      rw [dedupFirstAux]
      by_cases hx : x ∈ seen
      · rw [if_pos hx]
        exact (ih seen).cons x
      · rw [if_neg hx]
        exact (ih (x :: seen)).cons₂ x

/-- elements already seen never appear, and the result has no duplicate. -/
theorem dedupFirstAux_nodup (l : List String) :
    ∀ seen, (dedupFirstAux seen l).Nodup ∧
      ∀ y ∈ dedupFirstAux seen l, y ∉ seen := by
  induction l with
  | nil => intro seen; simp [dedupFirstAux]
  | cons x xs ih =>
      intro seen
      rw [dedupFirstAux]
      by_cases hx : x ∈ seen
      · rw [if_pos hx]
        exact ih seen
      · rw [if_neg hx]
        obtain ⟨hnd, hnin⟩ := ih (x :: seen)
        refine ⟨List.nodup_cons.mpr ⟨?_, hnd⟩, ?_⟩
        · intro hmem
          exact hnin x hmem (by simp)
        · intro y hy
          rcases List.mem_cons.mp hy with hy | hy
          · exact hy ▸ hx
          · exact fun hseen => hnin y hy (by simp [hseen])

/-- `dedupFirst` is an order-preserving, duplicate-free selection. -/
theorem dedupFirst_sublist (l : List String) : (dedupFirst l).Sublist l :=
  dedupFirstAux_sublist l []

/-- `dedupFirst` output contains no duplicate entries. -/
theorem dedupFirst_nodup (l : List String) : (dedupFirst l).Nodup :=
  (dedupFirstAux_nodup l []).1

/-- a message that is not a user object contributes no facts. -/
theorem msgFacts_nonUser (m : JsMsg) (h : isUserMsg m = false) :
    msgFacts m = Except.ok [] := by
  cases m with
  | nonObj => rfl
  | obj role content =>
      cases role with
      | none => rfl
      | some r =>
          have hr : ¬ (r = "user") := by simpa [isUserMsg] using h
          simp [msgFacts, hr]

/-- dropping the non-user messages does not change the collected facts. -/
theorem collectFacts_filter (msgs : List JsMsg) :
    collectFacts (msgs.filter isUserMsg) = collectFacts msgs := by
  induction msgs with
  | nil => rfl
  | cons m rest ih =>
      cases hm : isUserMsg m with
      | false =>
          rw [List.filter_cons_of_neg (by simp [hm])]
          rw [ih]
          symm
          cases hc : collectFacts rest with
          | ok b =>
              simp [collectFacts, msgFacts_nonUser m hm, hc]
              rfl
          | error e =>
              simp [collectFacts, msgFacts_nonUser m hm, hc]
              rfl
      | true =>
          rw [List.filter_cons_of_pos (by simp [hm])]
          simp only [collectFacts, ih]

/-- C8: whenever `extractKeyFacts` returns, its result holds at most 5
facts with no duplicate entry; it is the 5-truncated first-seen
deduplication of the raw per-message, per-pattern first matches, an
order-preserving selection from them; and only user-role messages
contribute — filtering the input to the user messages leaves the result
unchanged. -/
theorem C8_extractKeyFacts_bounded (msgs : List JsMsg) (facts : List String)
    (h : extractKeyFacts msgs = Except.ok facts) :
    facts.length ≤ 5 ∧ facts.Nodup ∧
      (∃ raw, collectFacts msgs = Except.ok raw ∧
        facts = (dedupFirst raw).take 5 ∧ facts.Sublist raw) ∧
      extractKeyFacts (msgs.filter isUserMsg) = Except.ok facts := by
  unfold extractKeyFacts at h
  cases hc : collectFacts msgs with
  | error e =>
      rw [hc] at h
      simp [Except.map] at h
  | ok raw =>
      rw [hc] at h
      simp only [Except.map, Except.ok.injEq] at h
      subst h
      refine ⟨?_, ?_, ⟨raw, rfl, rfl, ?_⟩, ?_⟩
      · simpa using List.length_take_le 5 (dedupFirst raw)
      · exact (dedupFirst_nodup raw).sublist (List.take_sublist 5 _)
      · exact (List.take_sublist 5 _).trans (dedupFirst_sublist raw)
      · unfold extractKeyFacts
        rw [collectFacts_filter, hc]
        rfl

/-- C8 witness: a single user message matching the identity pattern. -/
theorem C8_witness :
    (["i am Sam"] : List String).length ≤ 5 ∧
      (["i am Sam"] : List String).Nodup ∧
      (∃ raw,
        collectFacts [JsMsg.obj (some "user") (JsContent.str "i am Sam")] =
          Except.ok raw ∧
        (["i am Sam"] : List String) = (dedupFirst raw).take 5 ∧
        (["i am Sam"] : List String).Sublist raw) ∧
      extractKeyFacts
        ([JsMsg.obj (some "user") (JsContent.str "i am Sam")].filter isUserMsg) =
        Except.ok ["i am Sam"] :=
  C8_extractKeyFacts_bounded
    [JsMsg.obj (some "user") (JsContent.str "i am Sam")] ["i am Sam"] rfl
